import Mathlib

/-!
# The RC Report — analytics core, shallow embedding

A shallow embedding, in Lean 4, of the analytics / diff core of the
"RC Report" application:

* `stats.js` — `parseLap`, `withinDateRange`, `aggregateRuns` with its
  helpers `calculateKPIs`, `buildTrendSeries`, `calculateByTrack`;
* `diff.js` — `diffObjects`, `prettyLabelFromPath` and their helpers;
* `db.js` — `normalizeSetupData`;
* `sw.js` — `analyzeSetupChanges`.

Modelling conventions, fixed once for the whole file:

* JavaScript primitive values that can reach the analytics leaves are
  modelled by `JVal` (null, undefined, string, rational number).  IEEE
  doubles are modelled by `ℚ`; `NaN` is not a value of the model, except
  where it arises from date parsing, which is modelled explicitly by
  `Option` (`none` = invalid date / `NaN` timestamp).
* Nested plain objects are modelled by `JTree`, association lists of
  fields in insertion order.  Objects built by the modelled code never
  have duplicate keys.
* Optional string-valued record fields whose only use is truthiness
  tests and strict equality against non-empty strings are modelled by
  `Option String`, with `none` standing for any falsy value
  (absent / null / undefined / empty string).
* Date strings are modelled by `DateStr`: `missing` is any falsy value,
  `day d` a date-only `YYYY-MM-DD` string denoting calendar day `d`
  (an abstract day index), `stamp d ms` a parseable timestamp on day `d`
  at `ms` milliseconds into the day, and `bad` a non-empty string that
  does not parse (`new Date` gives `NaN`).  The host timezone is taken
  to be UTC, so the local calendar day of `stamp d ms` is `d`.
* Code that can raise is modelled in `Except String`; everything else is
  a total function, mirroring the fact that the source cannot throw
  there.
* `parseFloat` is modelled for decimal literals (optional sign, integer
  and fraction digits, longest prefix); exponent notation, `Infinity`
  and negative-zero formatting are outside the model.
* Array sorting (`Array.prototype.sort`) is modelled by a stable
  insertion sort driven by the source's comparator: an element is placed
  before the first element it compares strictly less than.
-/

deriving instance DecidableEq for Except

/-- JavaScript leaf value: null, undefined, string, or (finite) number. -/
inductive JVal where
  | vnull : JVal
  | vundefined : JVal
  | vstr (s : String) : JVal
  | vnum (q : ℚ) : JVal
deriving DecidableEq, Repr

/-- JavaScript truthiness of a leaf value. -/
def JVal.truthy : JVal → Bool
  | .vnull => false
  | .vundefined => false
  | .vstr s => s ≠ ""
  | .vnum q => q ≠ 0

/-- A JavaScript value tree: a leaf primitive or a plain object given as
its fields in insertion order. -/
inductive JTree where
  | leaf (v : JVal) : JTree
  | obj (fields : List (String × JTree)) : JTree

/-- `isPlainObject` from `diff.js`: true exactly on plain objects. -/
def isPlainObject : JTree → Bool
  | .leaf _ => false
  | .obj _ => true

/-- JavaScript truthiness of a tree (objects are always truthy). -/
def JTree.truthyT : JTree → Bool
  | .leaf v => v.truthy
  | .obj _ => true

/-- Property read `t[k]`: `undefined` when the key is absent or the
receiver is not an object. -/
def getField : JTree → String → JTree
  | .leaf _, _ => .leaf .vundefined
  | .obj fs, k => ((fs.find? (fun p => p.1 = k)).map Prod.snd).getD (.leaf .vundefined)

/-- `t || {}` — the tree itself when truthy, else an empty object. -/
def jsOrObj (t : JTree) : JTree :=
  if t.truthyT then t else .obj []

/-! ## `parseLap` (stats.js) -/

/-- One decimal digit to its value. -/
def digitVal (c : Char) : ℕ := c.toNat - '0'.toNat

/-- Digits to the natural number they denote (most significant first). -/
def digitsToNat (cs : List Char) : ℕ :=
  cs.foldl (fun a c => a * 10 + digitVal c) 0

/-- Model of JavaScript `parseFloat` on decimal literals: skip leading
whitespace, optional sign, then the longest `digits [. digits]` prefix;
`none` models `NaN`.  (Exponent notation and `Infinity` are outside the
model.) -/
def jsParseFloat (s : String) : Option ℚ :=
  let cs := s.toList.dropWhile (fun c => c = ' ' || c = '\t' || c = '\n' || c = '\r')
  let sign : ℚ := if cs.head? = some '-' then -1 else 1
  let cs1 := if cs.head? = some '-' || cs.head? = some '+' then cs.tail else cs
  let intPart := cs1.takeWhile Char.isDigit
  let rest := cs1.dropWhile Char.isDigit
  let fracPart := if rest.head? = some '.' then rest.tail.takeWhile Char.isDigit else []
  if intPart = [] ∧ fracPart = [] then none
  else some (sign * ((digitsToNat intPart : ℚ) +
    (digitsToNat fracPart : ℚ) / ((10 : ℚ) ^ fracPart.length)))

/-- `parseLap` from `stats.js`: `null`/`undefined`/empty string give
`null`; strings go through `parseFloat`; `NaN` and values `≤ 0` give
`null`; otherwise the number itself.  Total, hence never throws. -/
def parseLap : JVal → Option ℚ
  | .vnull => none
  | .vundefined => none
  | .vstr s =>
    if s = "" then none
    else
      match jsParseFloat s with
      | none => none
      | some q => if q ≤ 0 then none else some q
  | .vnum q => if q ≤ 0 then none else some q

/-! ## Dates (stats.js) -/

/-- A date-string-valued field, see the conventions above. -/
inductive DateStr where
  | missing : DateStr
  | day (d : ℕ) : DateStr
  | stamp (d : ℕ) (ms : ℕ) : DateStr
  | bad : DateStr
deriving DecidableEq, Repr

/-- Truthiness of a date string (only falsy values are `missing`). -/
def DateStr.truthyD : DateStr → Bool
  | .missing => false
  | _ => true

/-- `new Date(s).getTime()` in milliseconds since epoch; `none` is `NaN`
(invalid or missing date). -/
def DateStr.millis : DateStr → Option ℕ
  | .missing => none
  | .day d => some (d * 86400000)
  | .stamp d ms => some (d * 86400000 + ms)
  | .bad => none

/-- End of the (local = UTC) day of a date, after
`setHours(23, 59, 59, 999)`; `none` is `NaN`. -/
def DateStr.endOfDayMillis : DateStr → Option ℕ
  | .missing => none
  | .day d => some (d * 86400000 + 86399999)
  | .stamp d _ => some (d * 86400000 + 86399999)
  | .bad => none

/-- `a < b` on possibly-`NaN` timestamps: any comparison with `NaN` is
false, as in JavaScript. -/
def optLt : Option ℕ → Option ℕ → Bool
  | some a, some b => a < b
  | _, _ => false

/-- `withinDateRange` from `stats.js`: falsy date fails closed; then the
date must not be before the start nor after the end of the end day. -/
def withinDateRange (dateStr startStr endStr : DateStr) : Bool :=
  if dateStr = .missing then false
  else if startStr.truthyD && optLt dateStr.millis startStr.millis then false
  else if endStr.truthyD && optLt endStr.endOfDayMillis dateStr.millis then false
  else true

/-- `dateKeyFromLocal` from `stats.js`: the local (= UTC, by convention)
calendar-day key of a date string, `none` when it does not parse. -/
def dateKeyFromLocal : DateStr → Option ℕ
  | .missing => none
  | .day d => some d
  | .stamp d _ => some d
  | .bad => none

/-- `new Date(s).toISOString().split('T')[0]` — the UTC day key; throws
(`.error`) on an invalid date. -/
def isoDayKey : DateStr → Except String ℕ
  | .missing => .error "Invalid time value"
  | .day d => .ok d
  | .stamp d _ => .ok d
  | .bad => .error "Invalid time value"

/-! ## Structural diff engine (diff.js) -/

/-- The curated label lookup table `labelMap` from `diff.js`. -/
def labelMap : List (String × String) :=
  [ ("chassis.rideHeightF", "Ride Height (Front)"),
    ("chassis.rideHeightR", "Ride Height (Rear)"),
    ("chassis.droopF", "Droop (Front)"),
    ("chassis.droopR", "Droop (Rear)"),
    ("chassis.weightBalanceNotes", "Weight Balance"),
    ("suspension.springsF", "Springs (Front)"),
    ("suspension.springsR", "Springs (Rear)"),
    ("suspension.pistonsF", "Pistons (Front)"),
    ("suspension.pistonsR", "Pistons (Rear)"),
    ("suspension.shockOilF", "Shock Oil (Front)"),
    ("suspension.shockOilR", "Shock Oil (Rear)"),
    ("suspension.shockPosF", "Shock Position (Front)"),
    ("suspension.shockPosR", "Shock Position (Rear)"),
    ("suspension.camberF", "Camber (Front)"),
    ("suspension.camberR", "Camber (Rear)"),
    ("suspension.toeF", "Toe (Front)"),
    ("suspension.toeR", "Toe (Rear)"),
    ("drivetrain.pinion", "Pinion"),
    ("drivetrain.spur", "Spur"),
    ("drivetrain.fdrNotes", "FDR Notes"),
    ("drivetrain.diffType", "Diff Type"),
    ("drivetrain.diffOilF", "Diff Oil (Front)"),
    ("drivetrain.diffOilR", "Diff Oil (Rear)"),
    ("drivetrain.centerDiffOil", "Center Diff Oil"),
    ("tires.tireBrand", "Tire Brand"),
    ("tires.tireCompound", "Tire Compound"),
    ("tires.insert", "Insert"),
    ("tires.sauce", "Sauce"),
    ("tires.prepNotes", "Prep Notes"),
    ("electronics.escProfile", "ESC Profile"),
    ("electronics.timing", "Timing"),
    ("electronics.punch", "Punch"),
    ("electronics.motorNotes", "Motor Notes"),
    ("general.trackCondition", "Track Condition"),
    ("general.temp", "Temperature"),
    ("general.notes", "Notes") ]

/-- JavaScript whitespace for `trim` (the characters that occur in this
code base). -/
def isJsWs (c : Char) : Bool :=
  c = ' ' || c = '\t' || c = '\n' || c = '\r'

/-- `s.trim()`: strip leading and trailing whitespace. -/
def jsTrim (s : String) : String :=
  String.mk ((((s.toList.dropWhile isJsWs).reverse).dropWhile isJsWs).reverse)

/-- `s.split('.')[0]`: the first dot-separated segment. -/
def firstSegment (s : String) : String :=
  String.mk (s.toList.takeWhile (fun c => c ≠ '.'))

/-- The last element of `s.split('.')`: the last dot-separated segment. -/
def lastSegment (s : String) : String :=
  String.mk ((s.toList.reverse.takeWhile (fun c => c ≠ '.')).reverse)

/-- `s.replace(/_/g, ' ')`. -/
def underscoresToSpaces (s : String) : String :=
  String.mk (s.toList.map (fun c => if c = '_' then ' ' else c))

/-- The regex replace `([a-z0-9])([A-Z]) -> $1 $2`: insert a space
between a lowercase letter or digit and an uppercase letter.  The two
character classes are disjoint, so a left-to-right single pass matches
the global-regex semantics. -/
def camelSpace : List Char → List Char
  | [] => []
  | [c] => [c]
  | c1 :: c2 :: rest =>
    if (c1.isLower || c1.isDigit) && c2.isUpper then
      c1 :: ' ' :: camelSpace (c2 :: rest)
    else
      c1 :: camelSpace (c2 :: rest)

/-- `s.charAt(0).toUpperCase() + s.slice(1)`. -/
def capFirst (s : String) : String :=
  match s.toList with
  | [] => ""
  | c :: rest => String.mk (c.toUpper :: rest)

/-- `prettyLabelFromPath` from `diff.js`. -/
def prettyLabelFromPath (path : String) : String :=
  if path = "" then ""
  else
    match (labelMap.find? (fun p => p.1 = path)).map Prod.snd with
    | some label => label
    | none =>
      let key := lastSegment path
      let hasFR := key.toList.getLast? = some 'F' || key.toList.getLast? = some 'R'
      let baseKey := if hasFR then String.mk key.toList.dropLast else key
      let suffix :=
        if key.toList.getLast? = some 'F' then " (Front)"
        else if key.toList.getLast? = some 'R' then " (Rear)"
        else ""
      let spaced := jsTrim (underscoresToSpaces (String.mk (camelSpace baseKey.toList)))
      capFirst spaced ++ suffix

/-- `normalizeValue` from `diff.js`: null/undefined become the empty
string, strings are trimmed, other primitives pass through. -/
def normalizeValue : JVal → JVal
  | .vnull => .vstr ""
  | .vundefined => .vstr ""
  | .vstr s => .vstr (jsTrim s)
  | .vnum q => .vnum q

/-- `isEmpty` from `diff.js`. -/
def isEmpty : JVal → Bool
  | .vstr "" => true
  | .vnull => true
  | .vundefined => true
  | _ => false

/-- One emitted diff row. -/
structure Row where
  path : String
  group : String
  label : String
  aValue : JVal
  bValue : JVal
  changed : Bool
  changeType : String
deriving DecidableEq, Repr

/-- The leaf comparison of `diffObjects.visit`. -/
def mkRow (pfx : String) (va vb : JVal) : Row :=
  let normA := normalizeValue va
  let normB := normalizeValue vb
  let emptyA := isEmpty normA
  let emptyB := isEmpty normB
  let changeType :=
    if emptyA && !emptyB then "added"
    else if !emptyA && emptyB then "removed"
    else if !emptyA && !emptyB && normA != normB then "modified"
    else "same"
  { path := pfx
    group := firstSegment pfx
    label := prettyLabelFromPath pfx
    aValue := normA
    bValue := normB
    changed := changeType != "same"
    changeType := changeType }

/-- The fields of a tree (`{}` for primitives). -/
def fieldsOf : JTree → List (String × JTree)
  | .leaf _ => []
  | .obj fs => fs

/-- Key list with first-occurrence deduplication (JS `Set` insertion
order). -/
def dedupFirst : List String → List String
  | [] => []
  | k :: t => k :: (dedupFirst t).filter (fun x => x ≠ k)

/-- The `new Set([...keysA, ...keysB])` key union of `diffObjects`. -/
def unionKeys (a b : JTree) : List String :=
  dedupFirst ((fieldsOf a).map Prod.fst ++ (fieldsOf b).map Prod.fst)

/-- The primitive payload of a non-object tree. -/
def jvalOf : JTree → JVal
  | .leaf v => v
  | .obj _ => .vundefined

/-- The recursive `visit` of `diffObjects`, driven by fuel (the fuel is
an upper bound on the nesting depth; with enough fuel the recursion
matches the source exactly, and `diffObjects` below always supplies
enough). -/
def visitF (ignorePaths : List String) : ℕ → JTree → JTree → String → List Row
  | 0, _, _, _ => []
  | fuel + 1, a, b, pfx =>
    if isPlainObject a || isPlainObject b then
      (unionKeys a b).flatMap (fun k =>
        let path := if pfx = "" then k else pfx ++ "." ++ k
        if ignorePaths.contains path then []
        else visitF ignorePaths fuel (getField a k) (getField b k) path)
    else
      [mkRow pfx (jvalOf a) (jvalOf b)]

/-- Nesting depth of a tree (used only to size the fuel of `visitF`). -/
def JTree.depth : JTree → ℕ
  | .leaf _ => 0
  | .obj fs => 1 + depthFields fs
where depthFields : List (String × JTree) → ℕ
  | [] => 0
  | (_, t) :: rest => max t.depth (depthFields rest)

/-- `diffObjects` from `diff.js`: visit `a || {}` against `b || {}` and
drop the synthetic empty-path root row. -/
def diffObjects (a b : JTree) (ignorePaths : List String) : List Row :=
  (visitF ignorePaths (JTree.depth a + JTree.depth b + 1)
      (jsOrObj a) (jsOrObj b) "").filter (fun r => r.path ≠ "")

/-! ## Run aggregation (stats.js) -/

/-- A run-log record, with the fields `aggregateRuns` reads. -/
structure Run where
  carId : Option String
  eventId : Option String
  createdAt : DateStr
  sessionType : Option String
  bestLap : JVal
  avgLap : JVal
deriving DecidableEq, Repr

/-- An event record, with the fields the aggregation reads. -/
structure Event where
  id : String
  trackId : Option String
  date : DateStr
deriving DecidableEq, Repr

/-- A track record, with the fields the aggregation reads. -/
structure Track where
  id : String
  name : Option String
deriving DecidableEq, Repr

/-- The filter criteria of `aggregateRuns`. -/
structure Filters where
  carId : Option String
  trackId : Option String
  dateFrom : DateStr
  dateTo : DateStr
  sessionType : Option String
deriving DecidableEq, Repr

/-- The empty filter object (every criterion unset). -/
def Filters.nofilter : Filters :=
  { carId := none, trackId := none, dateFrom := .missing,
    dateTo := .missing, sessionType := none }

/-- The run filter predicate of `aggregateRuns` (the body of
`runs.filter`). -/
def runPasses (events : List Event) (filters : Filters) (run : Run) : Bool :=
  if filters.carId.isSome && (run.carId != filters.carId) then false
  else if filters.trackId.isSome &&
      !(match events.find? (fun e => some e.id == run.eventId) with
        | some event => event.trackId == filters.trackId
        | none => false) then false
  else if (filters.dateFrom.truthyD || filters.dateTo.truthyD) &&
      !withinDateRange run.createdAt filters.dateFrom filters.dateTo then false
  else if filters.sessionType.isSome && (run.sessionType != filters.sessionType) then false
  else true

/-- The KPI record of `calculateKPIs`. -/
structure KPIs where
  bestLapMin : Option ℚ
  avgLapMean : Option ℚ
  runCount : ℕ
  eventCount : ℕ
deriving DecidableEq, Repr

/-- `Math.min(...)` over a non-empty list, `null` for an empty one. -/
def minOfList : List ℚ → Option ℚ
  | [] => none
  | h :: t => some (t.foldl min h)

/-- `xs.reduce((sum, lap) => sum + lap, 0) / xs.length`. -/
def meanOfList (xs : List ℚ) : ℚ :=
  xs.foldl (· + ·) 0 / (xs.length : ℚ)

/-- `calculateKPIs` from `stats.js`. -/
def calculateKPIs (runs : List Run) : KPIs :=
  let bestLapTimes := (runs.map (fun r => parseLap r.bestLap)).filterMap id
  let avgLapTimes := (runs.map (fun r => parseLap r.avgLap)).filterMap id
  let bestLapMin := minOfList bestLapTimes
  let avgLapMean :=
    if avgLapTimes.length > 0 then some (meanOfList avgLapTimes)
    else if bestLapTimes.length > 0 then some (meanOfList bestLapTimes)
    else none
  { bestLapMin := bestLapMin
    avgLapMean := avgLapMean
    runCount := runs.length
    eventCount := ((runs.map Run.eventId).filterMap id).dedup.length }

/-- Stable insertion into a sorted list: place `x` before the first
element it compares strictly below (`lt x y` = "the comparator returned
a negative number"), matching a stable `Array.prototype.sort`. -/
def sortedInsert (lt : α → α → Bool) (x : α) : List α → List α
  | [] => [x]
  | y :: ys => if lt x y then x :: y :: ys else y :: sortedInsert lt x ys

/-- Model of a stable `Array.prototype.sort` with comparator-derived
strict order `lt`. -/
def jsSort (lt : α → α → Bool) (l : List α) : List α :=
  l.foldl (fun acc x => sortedInsert lt x acc) []

/-- Append `r` to the bucket of key `k`, or create the bucket at the end
(JS object keyed by `k`, insertion order preserved). -/
def insertGrouped [DecidableEq κ] (k : κ) (r : α) :
    List (κ × List α) → List (κ × List α)
  | [] => [(k, [r])]
  | (k', rs) :: t =>
    if k = k' then (k', rs ++ [r]) :: t else (k', rs) :: insertGrouped k r t

/-- Bucket a keyed list, preserving first-occurrence key order and
within-bucket order. -/
def groupPairs [DecidableEq κ] (pairs : List (κ × α)) : List (κ × List α) :=
  pairs.foldl (fun acc p => insertGrouped p.1 p.2 acc) []

/-- One point of the trend series.  `x` is the day bucket key: `some d`
for calendar day `d`, `none` for the `"null"` key produced when an
event's date string does not parse. -/
structure TrendPoint where
  x : Option ℕ
  bestLap : Option ℚ
  avgLap : Option ℚ
deriving DecidableEq, Repr

/-- The day-bucket resolution step of `buildTrendSeries` for one run:
`.ok none` means the run is skipped (no date at all), `.ok (some k)`
puts the run in bucket `k`, and `.error` models the `toISOString`
`RangeError` on an unparsable `createdAt`. -/
def resolveKey (events : List Event) (run : Run) : Except String (Option (Option ℕ)) :=
  match events.find? (fun e => some e.id == run.eventId) with
  | some event =>
    if event.date.truthyD then .ok (some (dateKeyFromLocal event.date))
    else if run.createdAt.truthyD then (isoDayKey run.createdAt).map (fun d => some (some d))
    else .ok none
  | none =>
    if run.createdAt.truthyD then (isoDayKey run.createdAt).map (fun d => some (some d))
    else .ok none

/-- Resolve every run to its day bucket key, in order, dropping runs
without dates and propagating the first thrown error. -/
def collectKeyed (events : List Event) : List Run → Except String (List (Option ℕ × Run))
  | [] => .ok []
  | r :: rs =>
    match resolveKey events r with
    | .error e => .error e
    | .ok none => collectKeyed events rs
    | .ok (some k) => (collectKeyed events rs).map (fun t => (k, r) :: t)

/-- Build one trend point from a day bucket. -/
def mkTrendPoint (k : Option ℕ) (dateRuns : List Run) : TrendPoint :=
  let bestLaps := (dateRuns.map (fun r => parseLap r.bestLap)).filterMap id
  let avgLaps := (dateRuns.map (fun r => parseLap r.avgLap)).filterMap id
  { x := k
    bestLap := minOfList bestLaps
    avgLap := if avgLaps.length > 0 then some (meanOfList avgLaps) else none }

/-- The trend-point comparator `new Date(a.x) - new Date(b.x) < 0`:
comparisons against the unparsable `"null"` key are never negative. -/
def ltTrendPoint (p q : TrendPoint) : Bool :=
  match p.x, q.x with
  | some a, some b => a < b
  | _, _ => false

/-- `buildTrendSeries` from `stats.js`. -/
def buildTrendSeries (runs : List Run) (events : List Event) :
    Except String (List TrendPoint) :=
  (collectKeyed events runs).map (fun keyed =>
    jsSort ltTrendPoint ((groupPairs keyed).map (fun p => mkTrendPoint p.1 p.2)))

/-- Accumulator entry of `calculateByTrack` (`trackData[track.id]`). -/
structure TrackAcc where
  trackId : String
  trackName : Option String
  bestLaps : List ℚ
  avgLaps : List ℚ
  runCount : ℕ
deriving DecidableEq, Repr

/-- One row of the per-track summary. -/
structure TrackSummary where
  trackId : String
  trackName : Option String
  bestLapMin : Option ℚ
  avgLapMean : Option ℚ
  runCount : ℕ
deriving DecidableEq, Repr

/-- Record one run in the per-track accumulator keyed by `track.id`,
creating the entry on first sight (insertion order preserved). -/
def accTrackRun (track : Track) (run : Run) :
    List (String × TrackAcc) → List (String × TrackAcc)
  | [] =>
    [(track.id,
      { trackId := track.id
        trackName := track.name
        bestLaps := (parseLap run.bestLap).toList
        avgLaps := (parseLap run.avgLap).toList
        runCount := 1 })]
  | (k, td) :: t =>
    if track.id = k then
      (k, { td with
              bestLaps := td.bestLaps ++ (parseLap run.bestLap).toList
              avgLaps := td.avgLaps ++ (parseLap run.avgLap).toList
              runCount := td.runCount + 1 }) :: t
    else (k, td) :: accTrackRun track run t

/-- The per-run step of `calculateByTrack`: resolve the run's event and
track, then record the run; unresolvable runs are skipped. -/
def byTrackStep (events : List Event) (tracks : List Track)
    (acc : List (String × TrackAcc)) (run : Run) : List (String × TrackAcc) :=
  match events.find? (fun e => some e.id == run.eventId) with
  | none => acc
  | some event =>
    match event.trackId with
    | none => acc
    | some tid =>
      match tracks.find? (fun t => t.id = tid) with
      | none => acc
      | some track => accTrackRun track run acc

/-- The name sort key `(a.trackName || '')`; `localeCompare` is modelled
by the byte-wise string order. -/
def trackNameKey (s : TrackSummary) : String := s.trackName.getD ""

/-- `calculateByTrack` from `stats.js`. -/
def calculateByTrack (runs : List Run) (events : List Event) (tracks : List Track) :
    List TrackSummary :=
  let trackData := runs.foldl (byTrackStep events tracks) []
  let trackSummary := trackData.map (fun p =>
    { trackId := p.2.trackId
      trackName := p.2.trackName
      bestLapMin := minOfList p.2.bestLaps
      avgLapMean :=
        if p.2.avgLaps.length > 0 then some (meanOfList p.2.avgLaps) else none
      runCount := p.2.runCount })
  jsSort (fun a b => trackNameKey a < trackNameKey b) trackSummary

/-- The arguments of `aggregateRuns`. -/
structure AggArgs where
  runs : List Run
  events : List Event
  tracks : List Track
  cars : List Unit
  filters : Filters

/-- The result record of `aggregateRuns`. -/
structure AggResult where
  filteredRuns : List Run
  kpis : KPIs
  trendSeries : List TrendPoint
  byTrack : List TrackSummary
deriving DecidableEq, Repr

/-- `aggregateRuns` from `stats.js`: filter, then KPIs, trend series and
per-track summary over the filtered set.  The only statement that can
throw is the trend series' `toISOString` on an unparsable `createdAt`,
modelled by the `Except`. -/
def aggregateRuns (args : AggArgs) : Except String AggResult :=
  let filteredRuns := args.runs.filter (runPasses args.events args.filters)
  (buildTrendSeries filteredRuns args.events).map (fun ts =>
    { filteredRuns := filteredRuns
      kpis := calculateKPIs filteredRuns
      trendSeries := ts
      byTrack := calculateByTrack filteredRuns args.events args.tracks })

/-! ## Setup normalization (db.js) -/

/-- A stored Setup record, with the two fields `normalizeSetupData`
reads.  `setupSchemaVersion` is stored as a number when present
(`none` = absent / null / undefined). -/
structure SetupRec where
  setupData : JTree
  setupSchemaVersion : Option ℚ

/-- The canonical schema-v2 shape produced by `normalizeSetupData`: six
fixed groups with 36 leaf slots in total.  Field values are arbitrary
trees, exactly as in the source (a truthy stored value of any shape is
kept as-is; falsy ones default to `""`). -/
structure NormSetup where
  rideHeightF : JTree
  rideHeightR : JTree
  droopF : JTree
  droopR : JTree
  weightBalanceNotes : JTree
  springsF : JTree
  springsR : JTree
  pistonsF : JTree
  pistonsR : JTree
  shockOilF : JTree
  shockOilR : JTree
  shockPosF : JTree
  shockPosR : JTree
  camberF : JTree
  camberR : JTree
  toeF : JTree
  toeR : JTree
  pinion : JTree
  spur : JTree
  fdrNotes : JTree
  diffType : JTree
  diffOilF : JTree
  diffOilR : JTree
  centerDiffOil : JTree
  tireBrand : JTree
  tireCompound : JTree
  insert : JTree
  sauce : JTree
  prepNotes : JTree
  escProfile : JTree
  timing : JTree
  punch : JTree
  motorNotes : JTree
  trackCondition : JTree
  temp : JTree
  notes : JTree

/-- A canonical slot value: `group.key || ''`. -/
def normFieldVal (v : JTree) : JTree :=
  if v.truthyT then v else .leaf (.vstr "")

/-- `setup.setupSchemaVersion || 1`. -/
def schemaOf (setup : SetupRec) : ℚ :=
  match setup.setupSchemaVersion with
  | some q => if q = 0 then 1 else q
  | none => 1

/-- `normalizeSetupData` from `db.js`: default every canonical slot,
then, for schema versions below 2, map the legacy flat fields
`rideHeight` / `springs` / `shockOil` into the front canonical slots
when (and only when) those slots are not already truthy. -/
def normalizeSetupData (setup : SetupRec) : NormSetup :=
  let data := jsOrObj setup.setupData
  let schema := schemaOf setup
  let chassis := jsOrObj (getField data "chassis")
  let suspension := jsOrObj (getField data "suspension")
  let drivetrain := jsOrObj (getField data "drivetrain")
  let tires := jsOrObj (getField data "tires")
  let electronics := jsOrObj (getField data "electronics")
  let general := jsOrObj (getField data "general")
  let norm : NormSetup :=
    { rideHeightF := normFieldVal (getField chassis "rideHeightF")
      rideHeightR := normFieldVal (getField chassis "rideHeightR")
      droopF := normFieldVal (getField chassis "droopF")
      droopR := normFieldVal (getField chassis "droopR")
      weightBalanceNotes := normFieldVal (getField chassis "weightBalanceNotes")
      springsF := normFieldVal (getField suspension "springsF")
      springsR := normFieldVal (getField suspension "springsR")
      pistonsF := normFieldVal (getField suspension "pistonsF")
      pistonsR := normFieldVal (getField suspension "pistonsR")
      shockOilF := normFieldVal (getField suspension "shockOilF")
      shockOilR := normFieldVal (getField suspension "shockOilR")
      shockPosF := normFieldVal (getField suspension "shockPosF")
      shockPosR := normFieldVal (getField suspension "shockPosR")
      camberF := normFieldVal (getField suspension "camberF")
      camberR := normFieldVal (getField suspension "camberR")
      toeF := normFieldVal (getField suspension "toeF")
      toeR := normFieldVal (getField suspension "toeR")
      pinion := normFieldVal (getField drivetrain "pinion")
      spur := normFieldVal (getField drivetrain "spur")
      fdrNotes := normFieldVal (getField drivetrain "fdrNotes")
      diffType := normFieldVal (getField drivetrain "diffType")
      diffOilF := normFieldVal (getField drivetrain "diffOilF")
      diffOilR := normFieldVal (getField drivetrain "diffOilR")
      centerDiffOil := normFieldVal (getField drivetrain "centerDiffOil")
      tireBrand := normFieldVal (getField tires "tireBrand")
      tireCompound := normFieldVal (getField tires "tireCompound")
      insert := normFieldVal (getField tires "insert")
      sauce := normFieldVal (getField tires "sauce")
      prepNotes := normFieldVal (getField tires "prepNotes")
      escProfile := normFieldVal (getField electronics "escProfile")
      timing := normFieldVal (getField electronics "timing")
      punch := normFieldVal (getField electronics "punch")
      motorNotes := normFieldVal (getField electronics "motorNotes")
      trackCondition := normFieldVal (getField general "trackCondition")
      temp := normFieldVal (getField general "temp")
      notes := normFieldVal (getField general "notes") }
  if schema < 2 then
    let n1 :=
      if (getField data "rideHeight").truthyT && !norm.rideHeightF.truthyT then
        { norm with rideHeightF := getField data "rideHeight" }
      else norm
    let n2 :=
      if (getField data "springs").truthyT && !n1.springsF.truthyT then
        { n1 with springsF := getField data "springs" }
      else n1
    let n3 :=
      if (getField data "shockOil").truthyT && !n2.shockOilF.truthyT then
        { n2 with shockOilF := getField data "shockOil" }
      else n2
    n3
  else norm

/-- The canonical record as the plain object the source returns, groups
and keys in source order. -/
def NormSetup.toTree (n : NormSetup) : JTree :=
  .obj
    [ ("chassis", .obj
        [ ("rideHeightF", n.rideHeightF),
          ("rideHeightR", n.rideHeightR),
          ("droopF", n.droopF),
          ("droopR", n.droopR),
          ("weightBalanceNotes", n.weightBalanceNotes) ]),
      ("suspension", .obj
        [ ("springsF", n.springsF),
          ("springsR", n.springsR),
          ("pistonsF", n.pistonsF),
          ("pistonsR", n.pistonsR),
          ("shockOilF", n.shockOilF),
          ("shockOilR", n.shockOilR),
          ("shockPosF", n.shockPosF),
          ("shockPosR", n.shockPosR),
          ("camberF", n.camberF),
          ("camberR", n.camberR),
          ("toeF", n.toeF),
          ("toeR", n.toeR) ]),
      ("drivetrain", .obj
        [ ("pinion", n.pinion),
          ("spur", n.spur),
          ("fdrNotes", n.fdrNotes),
          ("diffType", n.diffType),
          ("diffOilF", n.diffOilF),
          ("diffOilR", n.diffOilR),
          ("centerDiffOil", n.centerDiffOil) ]),
      ("tires", .obj
        [ ("tireBrand", n.tireBrand),
          ("tireCompound", n.tireCompound),
          ("insert", n.insert),
          ("sauce", n.sauce),
          ("prepNotes", n.prepNotes) ]),
      ("electronics", .obj
        [ ("escProfile", n.escProfile),
          ("timing", n.timing),
          ("punch", n.punch),
          ("motorNotes", n.motorNotes) ]),
      ("general", .obj
        [ ("trackCondition", n.trackCondition),
          ("temp", n.temp),
          ("notes", n.notes) ]) ]

/-- Modelled from the spec: the `asSetup()` re-wrapping in the
idempotence contract — the canonical record becomes the new record's
`setupData`; the wrapper itself carries no `setupSchemaVersion`. -/
def NormSetup.asSetup (n : NormSetup) : SetupRec :=
  { setupData := n.toTree, setupSchemaVersion := none }

/-- Re-apply the canonical slot defaulting (`v || ''`) to every slot of
a canonical record; `normalizeSetupData` on a re-wrapped canonical
record computes exactly this. -/
def mapNorm (n : NormSetup) : NormSetup where
  rideHeightF := normFieldVal n.rideHeightF
  rideHeightR := normFieldVal n.rideHeightR
  droopF := normFieldVal n.droopF
  droopR := normFieldVal n.droopR
  weightBalanceNotes := normFieldVal n.weightBalanceNotes
  springsF := normFieldVal n.springsF
  springsR := normFieldVal n.springsR
  pistonsF := normFieldVal n.pistonsF
  pistonsR := normFieldVal n.pistonsR
  shockOilF := normFieldVal n.shockOilF
  shockOilR := normFieldVal n.shockOilR
  shockPosF := normFieldVal n.shockPosF
  shockPosR := normFieldVal n.shockPosR
  camberF := normFieldVal n.camberF
  camberR := normFieldVal n.camberR
  toeF := normFieldVal n.toeF
  toeR := normFieldVal n.toeR
  pinion := normFieldVal n.pinion
  spur := normFieldVal n.spur
  fdrNotes := normFieldVal n.fdrNotes
  diffType := normFieldVal n.diffType
  diffOilF := normFieldVal n.diffOilF
  diffOilR := normFieldVal n.diffOilR
  centerDiffOil := normFieldVal n.centerDiffOil
  tireBrand := normFieldVal n.tireBrand
  tireCompound := normFieldVal n.tireCompound
  insert := normFieldVal n.insert
  sauce := normFieldVal n.sauce
  prepNotes := normFieldVal n.prepNotes
  escProfile := normFieldVal n.escProfile
  timing := normFieldVal n.timing
  punch := normFieldVal n.punch
  motorNotes := normFieldVal n.motorNotes
  trackCondition := normFieldVal n.trackCondition
  temp := normFieldVal n.temp
  notes := normFieldVal n.notes

/-! ## Setup-change correlator (sw.js) -/

/-- `m / 1000` with exactly three digits after the point. -/
def thousandthsToString (m : ℕ) : String :=
  let frac := m % 1000
  let pad := if frac < 10 then "00" else if frac < 100 then "0" else ""
  toString (m / 1000) ++ "." ++ pad ++ toString frac

/-- `q.toFixed(3)`: the nearest-thousandth decimal string, ties toward
the larger value, matching `Number.prototype.toFixed`.  (Negative-zero
formatting is outside the model.) -/
def toFixed3 (q : ℚ) : String :=
  let n : ℤ := round (q * 1000)
  if n < 0 then "-" ++ thousandthsToString n.natAbs else thousandthsToString n.toNat

/-- An enriched run as built by the analytics loader and consumed by
`analyzeSetupChanges`: `bestLapNum` is the pre-parsed lap
(`parseLap(run.bestLap)`), `trackId` the track resolved via the run's
event, `eventDate` that event's date (falsy when there is none). -/
structure ARun where
  carId : String
  trackId : Option String
  setupId : Option String
  bestLapNum : Option ℚ
  eventDate : DateStr
  createdAt : DateStr
deriving Repr

/-- The analytics context fields `analyzeSetupChanges` reads: the two
`Map`s, as association lists keyed by id. -/
structure AnalyticsContext where
  setupsById : List (String × SetupRec)
  tracksById : List (String × Track)

/-- `Map.get(k)` for a possibly-absent string key. -/
def mapGet (m : List (String × α)) : Option String → Option α
  | some k => (m.find? (fun p => p.1 = k)).map Prod.snd
  | none => none

/-- One emitted comparison row of `analyzeSetupChanges`. -/
structure Comparison where
  date : DateStr
  trackName : Option String
  changeCount : ℕ
  bestLapDelta : ℚ
  notes : String
deriving DecidableEq, Repr

/-- Truthiness of `run.bestLapNum` (a missing or zero number is falsy). -/
def truthyNum : Option ℚ → Bool
  | some q => q ≠ 0
  | none => false

/-- The `carId_trackId` composite grouping key. -/
def carTrackKey (r : ARun) : String :=
  r.carId ++ "_" ++ r.trackId.getD "unknown"

/-- The chronological sort key `new Date(a.eventDate || a.createdAt)`. -/
def aRunMillis (r : ARun) : Option ℕ :=
  (if r.eventDate.truthyD then r.eventDate else r.createdAt).millis

/-- The comparator-derived strict order of the chronological sort
(`NaN` differences are never negative). -/
def ltARun (a b : ARun) : Bool :=
  optLt (aRunMillis a) (aRunMillis b)

/-- The directional note of one comparison. -/
def comparisonNotes (bestLapDelta : ℚ) : String :=
  if bestLapDelta < 0 then "Improved by " ++ toFixed3 |bestLapDelta| ++ "s"
  else if bestLapDelta > 0 then "Slower by " ++ toFixed3 bestLapDelta ++ "s"
  else "No change"

/-- The loop body of `analyzeSetupChanges` for one adjacent pair of a
sorted car/track group: skip unchanged or unresolvable setups, otherwise
diff the normalized setups and emit a comparison. -/
def pairComparison (ctx : AnalyticsContext) (previousRun currentRun : ARun) :
    List Comparison :=
  if currentRun.setupId == previousRun.setupId then []
  else
    match mapGet ctx.setupsById currentRun.setupId,
          mapGet ctx.setupsById previousRun.setupId with
    | some currentSetup, some previousSetup =>
      let diff := diffObjects (normalizeSetupData previousSetup).toTree
        (normalizeSetupData currentSetup).toTree []
      let changeCount := (diff.filter (fun d => d.changeType ≠ "none")).length
      let bestLapDelta := currentRun.bestLapNum.getD 0 - previousRun.bestLapNum.getD 0
      let trackName :=
        match mapGet ctx.tracksById currentRun.trackId with
        | some track => track.name
        | none => some "Unknown Track"
      [{ date := if currentRun.eventDate.truthyD then currentRun.eventDate
                 else currentRun.createdAt
         trackName := trackName
         changeCount := changeCount
         bestLapDelta := bestLapDelta
         notes := comparisonNotes bestLapDelta }]
    | _, _ => []

/-- The adjacent-pair walk (`for i = 1; i < length; i++`). -/
def adjacentComparisons (ctx : AnalyticsContext) : List ARun → List Comparison
  | a :: b :: rest => pairComparison ctx a b ++ adjacentComparisons ctx (b :: rest)
  | _ => []

/-- `count` with the `comparison`/`comparisons` plural of the source. -/
def comparisonNoun (n : ℕ) : String :=
  toString n ++ " comparison" ++ (if n > 1 then "s" else "")

/-- One bucketed insight line. -/
def insightLine (descr : String) (cs : List Comparison) : String :=
  let avgDelta := (cs.map Comparison.bestLapDelta).foldl (· + ·) 0 / (cs.length : ℚ)
  "Average Best Lap Δ when " ++ descr ++ ": " ++
    (if avgDelta ≥ 0 then "+" else "") ++ toFixed3 avgDelta ++ "s (" ++
    comparisonNoun cs.length ++ ")"

/-- The insight generation of `analyzeSetupChanges`. -/
def buildInsights (comparisons : List Comparison) : List String :=
  if comparisons.length ≥ 3 then
    let smallChanges := comparisons.filter (fun c => 1 ≤ c.changeCount ∧ c.changeCount ≤ 3)
    let mediumChanges := comparisons.filter (fun c => 4 ≤ c.changeCount ∧ c.changeCount ≤ 10)
    let largeChanges := comparisons.filter (fun c => c.changeCount > 10)
    (if smallChanges.length > 0 then [insightLine "1–3 changes" smallChanges] else []) ++
    (if mediumChanges.length > 0 then [insightLine "4–10 changes" mediumChanges] else []) ++
    (if largeChanges.length > 0 then [insightLine "10+ changes" largeChanges] else [])
  else if comparisons.length > 0 then
    [toString comparisons.length ++ " setup comparison" ++
      (if comparisons.length > 1 then "s" else "") ++
      " available. More data needed for trend analysis."]
  else []

/-- The result of `analyzeSetupChanges`. -/
structure SetupAnalysis where
  comparisons : List Comparison
  insights : List String
deriving DecidableEq, Repr

/-- `analyzeSetupChanges` from `sw.js`: keep runs with a setup and a
valid lap, group by car and track, sort each group chronologically,
compare adjacent runs with different setups, then derive insights. -/
def analyzeSetupChanges (runs : List ARun) (ctx : AnalyticsContext) : SetupAnalysis :=
  let eligible := runs.filter (fun r => r.setupId.isSome && truthyNum r.bestLapNum)
  let groups := groupPairs (eligible.map (fun r => (carTrackKey r, r)))
  let comparisons := groups.flatMap (fun g => adjacentComparisons ctx (jsSort ltARun g.2))
  { comparisons := comparisons, insights := buildInsights comparisons }

/-! ## Concrete instances used by witnesses and counterexamples -/

/-- A run record with every field absent. -/
def baseRun : Run :=
  { carId := none, eventId := none, createdAt := .missing,
    sessionType := none, bestLap := .vnull, avgLap := .vnull }

/-- Setup A of the correlator scenario: `springsF = "4.4"`. -/
def c1SetupA : SetupRec :=
  { setupData := .obj [("suspension", .obj [("springsF", .leaf (.vstr "4.4"))])],
    setupSchemaVersion := some 2 }

/-- Setup B of the correlator scenario: `springsF = "4.6"` and one added
field `camberF = "1.5"`. -/
def c1SetupB : SetupRec :=
  { setupData := .obj [("suspension", .obj [("springsF", .leaf (.vstr "4.6")),
      ("camberF", .leaf (.vstr "1.5"))])],
    setupSchemaVersion := some 2 }

/-- Earlier run of the correlator scenario: setup A, best lap 15.5. -/
def c1RunPrev : ARun :=
  { carId := "car1", trackId := some "t1", setupId := some "sA",
    bestLapNum := some (155 / 10), eventDate := .day 0, createdAt := .missing }

/-- Later run of the correlator scenario: setup B, best lap 15.1. -/
def c1RunNext : ARun :=
  { carId := "car1", trackId := some "t1", setupId := some "sB",
    bestLapNum := some (151 / 10), eventDate := .day 1, createdAt := .missing }

/-- The analytics context of the correlator scenario. -/
def c1Ctx : AnalyticsContext :=
  { setupsById := [("sA", c1SetupA), ("sB", c1SetupB)],
    tracksById := [("t1", { id := "t1", name := some "Track A" })] }

/-- A run with best lap `"10"` and no average lap. -/
def c2Run10 : Run := { baseRun with bestLap := .vstr "10" }

/-- A run with best lap `"12"` and no average lap. -/
def c2Run12 : Run := { baseRun with bestLap := .vstr "12" }

/-- What the correlator actually emits on the scenario of C1: the lap
delta and note match the specification, but the change count is 36 (all
diff rows) instead of 2 (the rows that really changed). -/
def c1EmittedComparison : Comparison where
  date := .day 1
  trackName := some "Track A"
  changeCount := 36
  bestLapDelta := -(2 / 5)
  notes := "Improved by 0.400s"

/-- The full correlator output on the scenario of C1. -/
def c1Emitted : SetupAnalysis where
  comparisons := [c1EmittedComparison]
  insights := ["1 setup comparison available. More data needed for trend analysis."]

/-- The run of the C7 witness: resolvable event, no laps. -/
def c7Run : Run := { baseRun with eventId := some "e1" }

/-- The event of the C7 witness. -/
def c7Event : Event := { id := "e1", trackId := some "t1", date := .missing }

/-- The arguments of the C7 witness. -/
def c7Args : AggArgs :=
  { runs := [c7Run], events := [c7Event], tracks := [], cars := [],
    filters := { Filters.nofilter with trackId := some "t1" } }

/-- The aggregation result of the C7 witness. -/
def c7Res : AggResult :=
  { filteredRuns := [c7Run]
    kpis := { bestLapMin := none, avgLapMean := none, runCount := 1, eventCount := 1 }
    trendSeries := []
    byTrack := [] }

/-- The arguments of the C10 witness: one run without `createdAt`, a
`dateFrom` filter set. -/
def c10Args : AggArgs :=
  { runs := [baseRun], events := [], tracks := [], cars := [],
    filters := { Filters.nofilter with dateFrom := .day 0 } }

/-- The aggregation result of the C10 witness (the run is filtered
out). -/
def c10Res : AggResult :=
  { filteredRuns := []
    kpis := { bestLapMin := none, avgLapMean := none, runCount := 0, eventCount := 0 }
    trendSeries := []
    byTrack := [] }

/-- The leaf classification contract of the diff engine: `changeType`
reflects emptiness of the two normalized values exactly as specified,
and `changed` holds iff the type is not `"same"`. -/
def RowClassified (row : Row) : Prop :=
  ((row.changeType = "added") ↔
    (isEmpty row.aValue = true ∧ isEmpty row.bValue = false)) ∧
  ((row.changeType = "removed") ↔
    (isEmpty row.aValue = false ∧ isEmpty row.bValue = true)) ∧
  ((row.changeType = "modified") ↔
    (isEmpty row.aValue = false ∧ isEmpty row.bValue = false ∧
      row.aValue ≠ row.bValue)) ∧
  ((row.changeType = "same") ↔
    ((isEmpty row.aValue = true ∧ isEmpty row.bValue = true) ∨
     (isEmpty row.aValue = false ∧ isEmpty row.bValue = false ∧
       row.aValue = row.bValue))) ∧
  (row.changed = true ↔ row.changeType ≠ "same")

/-- The left tree of the C3 witness: `{a: {x: ""}}`. -/
def c3Left : JTree := .obj [("a", .obj [("x", .leaf (.vstr ""))])]

/-- The right tree of the C3 witness: `{a: {x: "5"}}`. -/
def c3Right : JTree := .obj [("a", .obj [("x", .leaf (.vstr "5"))])]

/-- The single row `diffObjects` emits on the C3 witness trees. -/
def c3Row : Row :=
  { path := "a.x", group := "a", label := "X", aValue := .vstr "",
    bValue := .vstr "5", changed := true, changeType := "added" }

/-- A schema-1 setup with legacy `rideHeight` and an already-populated
canonical `rideHeightF`. -/
def c5SetupKeep : SetupRec :=
  { setupData := .obj [("rideHeight", .leaf (.vstr "20mm")),
      ("chassis", .obj [("rideHeightF", .leaf (.vstr "22mm"))])],
    setupSchemaVersion := some 1 }

/-- A schema-1 setup with legacy `rideHeight` and an empty canonical
slot. -/
def c5SetupMap : SetupRec :=
  { setupData := .obj [("rideHeight", .leaf (.vstr "20mm"))],
    setupSchemaVersion := some 1 }

/-- A filtered run whose event exists but has an unparsable date
string: its trend bucket is the `"null"` key. -/
def c6Run : Run := { baseRun with eventId := some "e1", bestLap := .vstr "10" }

/-- The event of the C6 counterexample, with a date that does not
parse. -/
def c6Event : Event := { id := "e1", trackId := none, date := .bad }

/-- The arguments of the C6 counterexample. -/
def c6Args : AggArgs :=
  { runs := [c6Run], events := [c6Event], tracks := [], cars := [],
    filters := Filters.nofilter }

/-- The trend point the C6 counterexample produces: its `x` is the
`"null"` bucket, not a calendar day. -/
def c6Point : TrendPoint := { x := none, bestLap := some 10, avgLap := none }

/-- The aggregation result of the C6 counterexample. -/
def c6Res : AggResult :=
  { filteredRuns := [c6Run]
    kpis := { bestLapMin := some 10, avgLapMean := some 10,
              runCount := 1, eventCount := 1 }
    trendSeries := [c6Point]
    byTrack := [] }

/-- C6 witness runs: two on day 5, one on day 3, dated by `createdAt`. -/
def c6wRun1 : Run := { baseRun with createdAt := .day 5, bestLap := .vstr "11" }

/-- Second run of day 5 with the faster lap. -/
def c6wRun2 : Run := { baseRun with createdAt := .day 5, bestLap := .vstr "10.5" }

/-- The day-3 run. -/
def c6wRun3 : Run := { baseRun with createdAt := .day 3, bestLap := .vstr "12" }

/-- The arguments of the C6 witness. -/
def c6wArgs : AggArgs :=
  { runs := [c6wRun1, c6wRun2, c6wRun3], events := [], tracks := [],
    cars := [], filters := Filters.nofilter }

/-- The day-3 trend point of the C6 witness. -/
def c6wPoint3 : TrendPoint := { x := some 3, bestLap := some 12, avgLap := none }

/-- The day-5 trend point of the C6 witness: the two runs collapsed,
`bestLap` the minimum. -/
def c6wPoint5 : TrendPoint :=
  { x := some 5, bestLap := some (21 / 2), avgLap := none }

/-- The aggregation result of the C6 witness. -/
def c6wRes : AggResult :=
  { filteredRuns := [c6wRun1, c6wRun2, c6wRun3]
    kpis := { bestLapMin := some (21 / 2), avgLapMean := some (67 / 6),
              runCount := 3, eventCount := 0 }
    trendSeries := [c6wPoint3, c6wPoint5]
    byTrack := [] }

section ClaimTheorems

/- Kernel evaluation of concrete rational arithmetic needs the `Rat`
operations unfolded; this scopes to the remainder of the file. -/
attribute [local semireducible] Rat.add Rat.sub Rat.mul Rat.inv

/-! ## C8 — `parseLap` -/

/-- The general string case of `parseLap`, with the `''` early return
folded into the `parseFloat` case split. -/
theorem parseLap_vstr (s : String) :
    parseLap (.vstr s) =
      match jsParseFloat s with
      | none => none
      | some q => if q ≤ 0 then none else some q := by
  by_cases h : s = ""
  · subst h; rfl
  · simp [parseLap, h]

/--
C8: `parseLap` returns null for empty string, null, undefined,
non-numeric text (strings whose `parseFloat` is `NaN`), zero and
negative numbers, and otherwise the parsed floating-point seconds value;
`"15.234"` parses to `15.234`.  It is a total function, hence never
throws.
-/
theorem claim_C8_parseLap :
    parseLap .vnull = none ∧
    parseLap .vundefined = none ∧
    parseLap (.vstr "") = none ∧
    (∀ s, jsParseFloat s = none → parseLap (.vstr s) = none) ∧
    (∀ s q, jsParseFloat s = some q → q ≤ 0 → parseLap (.vstr s) = none) ∧
    (∀ s q, jsParseFloat s = some q → 0 < q → parseLap (.vstr s) = some q) ∧
    (∀ q : ℚ, q ≤ 0 → parseLap (.vnum q) = none) ∧
    (∀ q : ℚ, 0 < q → parseLap (.vnum q) = some q) ∧
    parseLap (.vstr "15.234") = some (15234 / 1000) := by
  refine ⟨rfl, rfl, rfl, ?_, ?_, ?_, ?_, ?_, by decide⟩
  · intro s h; rw [parseLap_vstr, h]
  · intro s q h hq; rw [parseLap_vstr, h]; simp [hq]
  · intro s q h hq; rw [parseLap_vstr, h]; simp [not_le.mpr hq]
  · intro q hq; simp [parseLap, hq]
  · intro q hq; simp [parseLap, not_le.mpr hq]

/-- Witness for C8 at concrete inputs: non-numeric text, zero, a
negative number, and `"15.234"`. -/
theorem claim_C8_witness :
    parseLap (.vstr "abc") = none ∧
    parseLap (.vstr "0") = none ∧
    parseLap (.vstr "-2.5") = none ∧
    parseLap (.vstr "15.234") = some (15234 / 1000) := by
  refine ⟨claim_C8_parseLap.2.2.2.1 "abc" (by decide),
    claim_C8_parseLap.2.2.2.2.1 "0" 0 (by decide) le_rfl,
    claim_C8_parseLap.2.2.2.2.1 "-2.5" (-(25 / 10)) (by decide) (by norm_num),
    claim_C8_parseLap.2.2.2.2.2.2.2.2⟩

/-! ## C2 — `avgLapMean` with best-lap fallback -/

/--
C2: for every run list, `avgLapMean` is the arithmetic mean of the
non-null parsed `avgLap` values; with no valid `avgLap` but at least one
valid `bestLap`, it falls back to the mean of the valid `bestLap`
values; with neither it is null.  In particular, runs with `bestLap`
values `[10, 12]` and no valid `avgLap` give `avgLapMean = 11`.
-/
theorem claim_C2_avgLapMean :
    (∀ runs : List Run,
      (calculateKPIs runs).avgLapMean =
        (let avgs := (runs.map (fun r => parseLap r.avgLap)).filterMap id
         let bests := (runs.map (fun r => parseLap r.bestLap)).filterMap id
         if avgs.length > 0 then some (avgs.sum / avgs.length)
         else if bests.length > 0 then some (bests.sum / bests.length)
         else none)) ∧
    (calculateKPIs [c2Run10, c2Run12]).avgLapMean = some 11 := by
  constructor
  · intro runs
    simp only [calculateKPIs, meanOfList, ← List.sum_eq_foldl]
  · decide

/-! ## C9 — empty aggregation -/

/--
C9: whenever the filters match zero runs (in particular on an empty runs
list), `aggregateRuns` returns — without raising — `kpis` with null
`bestLapMin` and `avgLapMean` and zero `runCount`/`eventCount`, an empty
trend series and an empty per-track summary.
-/
theorem claim_C9_empty (args : AggArgs)
    (h : args.runs.filter (runPasses args.events args.filters) = []) :
    aggregateRuns args =
      .ok { filteredRuns := []
            kpis := { bestLapMin := none, avgLapMean := none,
                      runCount := 0, eventCount := 0 }
            trendSeries := []
            byTrack := [] } := by
  unfold aggregateRuns
  rw [h]
  rfl

/-- Witness for C9: the literally empty input. -/
theorem claim_C9_witness :
    aggregateRuns
        { runs := [], events := [], tracks := [], cars := [],
          filters := Filters.nofilter } =
      .ok { filteredRuns := []
            kpis := { bestLapMin := none, avgLapMean := none,
                      runCount := 0, eventCount := 0 }
            trendSeries := []
            byTrack := [] } :=
  claim_C9_empty _ rfl

/-! ## C1 — Setup-Change Correlator change count -/

/--
C1 (code defect): on the specified scenario — two runs of the same car
and track, setups differing in `springsF` (`"4.4"` vs `"4.6"`) plus one
added field, best lap improving 15.5 → 15.1 — the correlator emits one
comparison whose `bestLapDelta` is exactly −0.4 and whose note reads
"Improved by 0.400s", but whose `changeCount` is 36, the total number of
diff rows, although only 2 rows are real changes: the filter
`changeType !== 'none'` never excludes anything because the diff engine
emits `'same'`, not `'none'`, for unchanged rows.
-/
theorem claim_C1_correlator_eval :
    analyzeSetupChanges [c1RunPrev, c1RunNext] c1Ctx = c1Emitted ∧
    ((diffObjects (normalizeSetupData c1SetupA).toTree
        (normalizeSetupData c1SetupB).toTree []).filter
          (fun d => d.changed)).length = 2 ∧
    ((diffObjects (normalizeSetupData c1SetupA).toTree
        (normalizeSetupData c1SetupB).toTree []).filter
          (fun d => d.changeType ≠ "same")).length = 2 ∧
    c1EmittedComparison.changeCount = 36 :=
  ⟨by decide, by decide, by decide, rfl⟩

/-! ## Helper lemmas on `aggregateRuns` -/

/-- A successful aggregation's `filteredRuns` is the filter of the input
runs by `runPasses`. -/
theorem aggregateRuns_ok_filteredRuns (args : AggArgs) (res : AggResult)
    (h : aggregateRuns args = .ok res) :
    res.filteredRuns = args.runs.filter (runPasses args.events args.filters) := by
  simp only [aggregateRuns] at h
  cases hb : buildTrendSeries (args.runs.filter (runPasses args.events args.filters))
      args.events with
  | error e => rw [hb] at h; simp [Except.map] at h
  | ok ts =>
    rw [hb] at h
    simp only [Except.map] at h
    cases h
    rfl

/-- A passing run passed the date-range check whenever a date filter was
set. -/
theorem runPasses_true_date (events : List Event) (filters : Filters) (run : Run)
    (hp : runPasses events filters run = true)
    (hd : (filters.dateFrom.truthyD || filters.dateTo.truthyD) = true) :
    withinDateRange run.createdAt filters.dateFrom filters.dateTo = true := by
  unfold runPasses at hp
  split_ifs at hp with h1 h2 h3 h4
  all_goals try simp at hp
  rw [hd] at h3
  simpa using h3

/-- A passing run resolved its event and matched the track filter
whenever a track filter was set. -/
theorem runPasses_true_track (events : List Event) (filters : Filters) (run : Run)
    (t : String) (hp : runPasses events filters run = true)
    (ht : filters.trackId = some t) :
    ∃ e, events.find? (fun e => some e.id == run.eventId) = some e ∧
      e.trackId = some t := by
  unfold runPasses at hp
  split_ifs at hp with h1 h2 h3 h4
  all_goals try simp at hp
  rw [ht] at h2
  simp only [Option.isSome_some, Bool.true_and, Bool.not_eq_true'] at h2
  cases hf : events.find? (fun e => some e.id == run.eventId) with
  | none => rw [hf] at h2; simp at h2
  | some e =>
    rw [hf] at h2
    refine ⟨e, rfl, ?_⟩
    simpa using h2

/-! ## C7 — track filter fails closed on unresolvable events -/

/--
C7: with a `trackId` filter set, every run surviving the filter has an
event in the supplied event list whose id matches the run's `eventId`
and whose `trackId` equals the filter value; a run whose event cannot be
resolved is excluded no matter its other fields.
-/
theorem claim_C7_trackId_filter (args : AggArgs) (t : String) (run : Run)
    (res : AggResult)
    (ht : args.filters.trackId = some t)
    (hok : aggregateRuns args = .ok res)
    (hmem : run ∈ res.filteredRuns) :
    ∃ e ∈ args.events, run.eventId = some e.id ∧ e.trackId = some t := by
  rw [aggregateRuns_ok_filteredRuns args res hok] at hmem
  have hp := (List.mem_filter.mp hmem).2
  obtain ⟨e, hf, hTrack⟩ := runPasses_true_track args.events args.filters run t hp ht
  have hbeq := List.find?_some hf
  refine ⟨e, List.mem_of_find?_eq_some hf, ?_, hTrack⟩
  have : some e.id = run.eventId := by simpa using hbeq
  exact this.symm

/-- Witness for C7: the filtered run's event resolves to track `"t1"`. -/
theorem claim_C7_witness :
    ∃ e ∈ c7Args.events, c7Run.eventId = some e.id ∧ e.trackId = some "t1" :=
  claim_C7_trackId_filter c7Args "t1" c7Run c7Res rfl rfl (by decide)

/-! ## C10 — missing `createdAt` fails the date filter closed -/

/--
C10: when a `dateFrom` or `dateTo` filter is set, a run whose
`createdAt` is falsy (null / undefined / empty) is excluded from
`filteredRuns` — `withinDateRange` returns false on a falsy date — so it
contributes to no KPI, trend or per-track output.
-/
theorem claim_C10_missing_createdAt (args : AggArgs) (run : Run) (res : AggResult)
    (hd : (args.filters.dateFrom.truthyD || args.filters.dateTo.truthyD) = true)
    (hc : run.createdAt = .missing)
    (hok : aggregateRuns args = .ok res) :
    run ∉ res.filteredRuns := by
  intro hmem
  rw [aggregateRuns_ok_filteredRuns args res hok] at hmem
  have hp := (List.mem_filter.mp hmem).2
  have hw := runPasses_true_date args.events args.filters run hp hd
  rw [hc] at hw
  simp [withinDateRange] at hw

/-- Witness for C10: the dateless run is excluded. -/
theorem claim_C10_witness : baseRun ∉ c10Res.filteredRuns :=
  claim_C10_missing_createdAt c10Args baseRun c10Res rfl rfl rfl

/-! ## C4 / C5 — the setup normalizer -/

/-- A truthy slot value is kept by the slot defaulting. -/
theorem normFieldVal_truthy (v : JTree) (h : v.truthyT = true) :
    normFieldVal v = v := by
  simp [normFieldVal, h]

/-- Slot defaulting is idempotent on values. -/
theorem normFieldVal_idem (v : JTree) :
    normFieldVal (normFieldVal v) = normFieldVal v := by
  by_cases h : v.truthyT
  · rw [normFieldVal_truthy v h]
    exact normFieldVal_truthy v h
  · simp only [normFieldVal, h, if_false, Bool.false_eq_true]
    rfl

/-- Normalizing a re-wrapped canonical record just re-applies the slot
defaulting: the wrapper has schema 1, but none of the legacy flat keys
exists on a canonical record. -/
theorem renorm_eq_mapNorm (n : NormSetup) :
    normalizeSetupData n.asSetup = mapNorm n := rfl

/-- The output of `normalizeSetupData` is a fixed point of the slot
defaulting: every slot is either `v || ''` of a stored value or a truthy
legacy value. -/
theorem mapNorm_normalize (x : SetupRec) :
    mapNorm (normalizeSetupData x) = normalizeSetupData x := by
  simp only [normalizeSetupData]
  split_ifs with h1 h2 h3 h4 <;>
    simp_all [mapNorm, NormSetup.mk.injEq, normFieldVal_idem, normFieldVal_truthy]

/--
C4: `normalizeSetupData` is idempotent — re-wrapping its canonical
output as a Setup's `setupData` and normalizing again returns the same
record.
-/
theorem claim_C4_idempotent (x : SetupRec) :
    normalizeSetupData (normalizeSetupData x).asSetup = normalizeSetupData x := by
  rw [renorm_eq_mapNorm, mapNorm_normalize]

/--
C5: for schema versions below 2 (or missing, which defaults to 1), each
legacy flat field (`rideHeight`, `springs`, `shockOil`) is mapped into
its front-side canonical slot only when that slot is empty; a truthy
canonical value is never overridden by a legacy value.
-/
theorem claim_C5_legacy_mapping (setup : SetupRec) (h : schemaOf setup < 2) :
    ((normalizeSetupData setup).rideHeightF =
      (let data := jsOrObj setup.setupData
       let base := normFieldVal (getField (jsOrObj (getField data "chassis")) "rideHeightF")
       if base.truthyT then base
       else if (getField data "rideHeight").truthyT then getField data "rideHeight"
       else base)) ∧
    ((normalizeSetupData setup).springsF =
      (let data := jsOrObj setup.setupData
       let base := normFieldVal (getField (jsOrObj (getField data "suspension")) "springsF")
       if base.truthyT then base
       else if (getField data "springs").truthyT then getField data "springs"
       else base)) ∧
    ((normalizeSetupData setup).shockOilF =
      (let data := jsOrObj setup.setupData
       let base := normFieldVal (getField (jsOrObj (getField data "suspension")) "shockOilF")
       if base.truthyT then base
       else if (getField data "shockOil").truthyT then getField data "shockOil"
       else base)) := by
  simp only [normalizeSetupData]
  rw [if_pos h]
  refine ⟨?_, ?_, ?_⟩ <;>
    split_ifs <;> simp_all [normFieldVal]

/-- Witness for C5: with `rideHeightF` already `"22mm"` the legacy
`"20mm"` does not override; with the slot empty it is mapped in. -/
theorem claim_C5_witness :
    (normalizeSetupData c5SetupKeep).rideHeightF = .leaf (.vstr "22mm") ∧
    (normalizeSetupData c5SetupMap).rideHeightF = .leaf (.vstr "20mm") := by
  have h1 := (claim_C5_legacy_mapping c5SetupKeep (by decide)).1
  have h2 := (claim_C5_legacy_mapping c5SetupMap (by decide)).1
  exact ⟨by rw [h1]; rfl, by rw [h2]; rfl⟩

/-! ## C3 — diff leaf classification -/

/-- Every leaf row built by the diff engine satisfies the
classification contract. -/
theorem mkRow_classified (pfx : String) (va vb : JVal) :
    RowClassified (mkRow pfx va vb) := by
  unfold RowClassified mkRow
  by_cases hA : isEmpty (normalizeValue va) <;>
    by_cases hB : isEmpty (normalizeValue vb) <;>
      by_cases hE : normalizeValue va = normalizeValue vb <;>
        simp_all [bne]

/-- Every row emitted by any `visit` call satisfies the classification
contract, by induction on the fuel. -/
theorem visitF_classified (ign : List String) :
    ∀ (fuel : ℕ) (a b : JTree) (pfx : String) (row : Row),
      row ∈ visitF ign fuel a b pfx → RowClassified row := by
  intro fuel
  induction fuel with
  | zero => intro a b pfx row h; simp [visitF] at h
  | succ n ih =>
    intro a b pfx row h
    simp only [visitF] at h
    split at h
    · rw [List.mem_flatMap] at h
      obtain ⟨k, _, hrow⟩ := h
      split at hrow <;>
        (split at hrow <;> first | simp at hrow | exact ih _ _ _ _ hrow)
    · rw [List.mem_singleton] at h
      subst h
      exact mkRow_classified _ _ _

/--
C3: for every pair of leaf values compared by `diffObjects`, the emitted
row (whose `aValue`/`bValue` are the normalized values: strings trimmed,
null/undefined/empty treated as empty) has `changeType = "added"` iff
the left is empty and the right non-empty, `"removed"` iff the left is
non-empty and the right empty, `"modified"` iff both are non-empty and
unequal, `"same"` otherwise, and `changed` holds iff the type is not
`"same"`.
-/
theorem claim_C3_diff_classification (a b : JTree) (ign : List String) (row : Row)
    (h : row ∈ diffObjects a b ign) :
    ((row.changeType = "added") ↔
      (isEmpty row.aValue = true ∧ isEmpty row.bValue = false)) ∧
    ((row.changeType = "removed") ↔
      (isEmpty row.aValue = false ∧ isEmpty row.bValue = true)) ∧
    ((row.changeType = "modified") ↔
      (isEmpty row.aValue = false ∧ isEmpty row.bValue = false ∧
        row.aValue ≠ row.bValue)) ∧
    ((row.changeType = "same") ↔
      ((isEmpty row.aValue = true ∧ isEmpty row.bValue = true) ∨
       (isEmpty row.aValue = false ∧ isEmpty row.bValue = false ∧
         row.aValue = row.bValue))) ∧
    (row.changed = true ↔ row.changeType ≠ "same") :=
  visitF_classified ign _ (jsOrObj a) (jsOrObj b) "" row
    (List.mem_filter.mp h).1

/-- Witness for C3 at `diffObjects {a:{x:""}} {a:{x:"5"}}`: its one row
is classified, and indeed `changeType = "added"` with an empty left and
non-empty right. -/
theorem claim_C3_witness :
    (((c3Row.changeType = "added") ↔
        (isEmpty c3Row.aValue = true ∧ isEmpty c3Row.bValue = false)) ∧
      ((c3Row.changeType = "removed") ↔
        (isEmpty c3Row.aValue = false ∧ isEmpty c3Row.bValue = true)) ∧
      ((c3Row.changeType = "modified") ↔
        (isEmpty c3Row.aValue = false ∧ isEmpty c3Row.bValue = false ∧
          c3Row.aValue ≠ c3Row.bValue)) ∧
      ((c3Row.changeType = "same") ↔
        ((isEmpty c3Row.aValue = true ∧ isEmpty c3Row.bValue = true) ∨
         (isEmpty c3Row.aValue = false ∧ isEmpty c3Row.bValue = false ∧
           c3Row.aValue = c3Row.bValue))) ∧
      (c3Row.changed = true ↔ c3Row.changeType ≠ "same")) ∧
    diffObjects c3Left c3Right [] = [c3Row] :=
  ⟨claim_C3_diff_classification c3Left c3Right [] c3Row (by decide), by decide⟩

/-! ## C6 — generic facts about the modelled stable sort -/

/-- Inserting into a list permutes consing. -/
theorem sortedInsert_perm {α : Type} (lt : α → α → Bool) (x : α) :
    ∀ l : List α, (sortedInsert lt x l).Perm (x :: l) := by
  intro l
  induction l with
  | nil => simp [sortedInsert]
  | cons y ys ih =>
    rw [sortedInsert]
    split
    · exact .refl _
    · exact (ih.cons y).trans (List.Perm.swap x y ys)

/-- The fold of insertions permutes appending. -/
theorem foldl_sortedInsert_perm {α : Type} (lt : α → α → Bool) :
    ∀ (l acc : List α),
      (l.foldl (fun acc x => sortedInsert lt x acc) acc).Perm (acc ++ l) := by
  intro l
  induction l with
  | nil => intro acc; simp
  | cons x t ih =>
    intro acc
    simp only [List.foldl_cons]
    refine (ih (sortedInsert lt x acc)).trans ?_
    refine (List.Perm.append_right t (sortedInsert_perm lt x acc)).trans ?_
    exact List.perm_middle.symm

/-- The modelled sort permutes its input. -/
theorem jsSort_perm {α : Type} (lt : α → α → Bool) (l : List α) :
    (jsSort lt l).Perm l := by
  simpa using foldl_sortedInsert_perm lt l []

/-- Inserting an element with a fresh `ℕ` key into a key-sorted list
keeps it key-sorted, provided the comparator agrees with the keys. -/
theorem sortedInsert_pairwise_key {α : Type} (lt : α → α → Bool) (f : α → ℕ) (x : α) :
    ∀ l : List α, l.Pairwise (fun a b => f a < f b) →
      (∀ y ∈ l, lt x y = decide (f x < f y)) →
      (∀ y ∈ l, f x ≠ f y) →
      (sortedInsert lt x l).Pairwise (fun a b => f a < f b) := by
  intro l
  induction l with
  | nil => intro _ _ _; simp [sortedInsert]
  | cons y ys ih =>
    intro hs hcmp hne
    rw [sortedInsert]
    split
    · rename_i hlt
      have hxy : f x < f y := by
        rw [hcmp y (by simp)] at hlt
        exact of_decide_eq_true hlt
      refine List.Pairwise.cons ?_ hs
      intro z hz
      rcases List.mem_cons.mp hz with rfl | hz'
      · exact hxy
      · exact hxy.trans ((List.pairwise_cons.mp hs).1 z hz')
    · rename_i hlt
      have hyx : f y < f x := by
        rw [hcmp y (by simp)] at hlt
        have hnot : ¬ f x < f y := by simpa using hlt
        exact Nat.lt_of_le_of_ne (Nat.le_of_not_lt hnot) (Ne.symm (hne y (by simp)))
      refine List.Pairwise.cons ?_
        (ih (List.pairwise_cons.mp hs).2
          (fun z hz => hcmp z (by simp [hz]))
          (fun z hz => hne z (by simp [hz])))
      intro z hz
      rcases List.mem_cons.mp ((sortedInsert_perm lt x ys).mem_iff.mp hz) with rfl | hz'
      · exact hyx
      · exact (List.pairwise_cons.mp hs).1 z hz'

/-- The modelled sort produces a strictly key-ascending list when the
comparator agrees with distinct `ℕ` keys. -/
theorem foldl_sortedInsert_pairwise_key {α : Type} (lt : α → α → Bool) (f : α → ℕ) :
    ∀ (l acc : List α),
      acc.Pairwise (fun a b => f a < f b) →
      (∀ a ∈ l ++ acc, ∀ b ∈ l ++ acc, lt a b = decide (f a < f b)) →
      (l ++ acc).Pairwise (fun a b => f a ≠ f b) →
      (l.foldl (fun acc x => sortedInsert lt x acc) acc).Pairwise
        (fun a b => f a < f b) := by
  intro l
  induction l with
  | nil => intro acc hacc _ _; simpa using hacc
  | cons x t ih =>
    intro acc hacc hcmp hne
    have hmemins : ∀ z ∈ sortedInsert lt x acc, z = x ∨ z ∈ acc := by
      intro z hz
      simpa using (sortedInsert_perm lt x acc).mem_iff.mp hz
    have hxne : ∀ z ∈ t ++ acc, f x ≠ f z := by
      have h1 : (x :: (t ++ acc)).Pairwise (fun a b => f a ≠ f b) := by
        simpa using hne
      exact (List.pairwise_cons.mp h1).1
    simp only [List.foldl_cons]
    refine ih (sortedInsert lt x acc) ?_ ?_ ?_
    · refine sortedInsert_pairwise_key lt f x acc hacc ?_ ?_
      · intro y hy; exact hcmp x (by simp) y (by simp [hy])
      · intro y hy; exact hxne y (by simp [hy])
    · intro a ha b hb
      have hmem : ∀ z, z ∈ t ++ sortedInsert lt x acc → z ∈ (x :: t) ++ acc := by
        intro z hz
        rcases List.mem_append.mp hz with hz' | hz'
        · simp [hz']
        · rcases hmemins z hz' with rfl | hz''
          · simp
          · simp [hz'']
      exact hcmp a (hmem a ha) b (hmem b hb)
    · have hperm : (t ++ sortedInsert lt x acc).Perm ((x :: t) ++ acc) := by
        refine (List.Perm.append_left t (sortedInsert_perm lt x acc)).trans ?_
        exact List.perm_middle
      exact (hperm.pairwise_iff (fun h => Ne.symm h)).mpr hne

/-! ## C6 — facts about the keyed grouping -/

/-- Inserting into the grouped accumulator adds the key at the end iff
it is new. -/
theorem insertGrouped_fst {κ α : Type} [DecidableEq κ] (k : κ) (r : α) :
    ∀ acc : List (κ × List α),
      (insertGrouped k r acc).map Prod.fst =
        if k ∈ acc.map Prod.fst then acc.map Prod.fst
        else acc.map Prod.fst ++ [k] := by
  intro acc
  induction acc with
  | nil => simp [insertGrouped]
  | cons p t ih =>
    obtain ⟨k', rs⟩ := p
    simp only [insertGrouped]
    split
    · rename_i h; simp [h]
    · rename_i h
      simp only [List.map_cons, ih, List.mem_cons]
      by_cases hk : k ∈ t.map Prod.fst <;> simp [hk, h, Ne.symm h]

/-- Inserting preserves distinctness of the group keys. -/
theorem insertGrouped_nodup {κ α : Type} [DecidableEq κ] (k : κ) (r : α)
    (acc : List (κ × List α)) (h : (acc.map Prod.fst).Nodup) :
    ((insertGrouped k r acc).map Prod.fst).Nodup := by
  rw [insertGrouped_fst]
  split
  · exact h
  · rename_i hk
    simp [List.nodup_append, h, hk]

/-- Looking up the inserted key finds its bucket, extended by the new
element. -/
theorem insertGrouped_find_same {κ α : Type} [DecidableEq κ] (k : κ) (r : α) :
    ∀ acc : List (κ × List α),
      ((insertGrouped k r acc).find? (fun p => p.1 = k)).map Prod.snd =
        some ((((acc.find? (fun p => p.1 = k)).map Prod.snd).getD []) ++ [r]) := by
  intro acc
  induction acc with
  | nil => simp [insertGrouped]
  | cons p t ih =>
    obtain ⟨k', rs⟩ := p
    simp only [insertGrouped]
    split
    · rename_i h
      subst h
      simp [List.find?_cons]
    · rename_i h
      rw [List.find?_cons_of_neg, List.find?_cons_of_neg]
      · exact ih
      · simpa using fun hc => h hc.symm
      · simpa using fun hc => h hc.symm

/-- Looking up a different key is unaffected by an insertion. -/
theorem insertGrouped_find_other {κ α : Type} [DecidableEq κ] (k : κ) (r : α)
    (k' : κ) (hne : k' ≠ k) :
    ∀ acc : List (κ × List α),
      (insertGrouped k r acc).find? (fun p => p.1 = k') =
        acc.find? (fun p => p.1 = k') := by
  intro acc
  induction acc with
  | nil => simp [insertGrouped, Ne.symm hne]
  | cons p t ih =>
    obtain ⟨k₀, rs⟩ := p
    simp only [insertGrouped]
    split
    · rename_i h
      subst h
      rw [List.find?_cons_of_neg _ (by simp only [decide_eq_true_eq]; exact fun hc => hne hc.symm),
        List.find?_cons_of_neg _ (by simp only [decide_eq_true_eq]; exact fun hc => hne hc.symm)]
    · rename_i h
      by_cases hk : k₀ = k'
      · subst hk
        rw [List.find?_cons_of_pos _ (by simp), List.find?_cons_of_pos _ (by simp)]
      · rw [List.find?_cons_of_neg _ (by simp_all), List.find?_cons_of_neg _ (by simp_all)]
        exact ih

/-- The bucket of key `k` after folding a keyed list into the grouped
accumulator: untouched when nothing is filtered in, otherwise the
previous bucket extended by the filtered values. -/
theorem foldl_insertGrouped_find {κ α : Type} [DecidableEq κ] (k : κ) :
    ∀ (pairs : List (κ × α)) (acc : List (κ × List α)),
      (pairs.filter (fun p => p.1 = k) = [] →
        ((pairs.foldl (fun acc p => insertGrouped p.1 p.2 acc) acc).find?
            (fun p => p.1 = k)).map Prod.snd =
          (acc.find? (fun p => p.1 = k)).map Prod.snd) ∧
      (pairs.filter (fun p => p.1 = k) ≠ [] →
        ((pairs.foldl (fun acc p => insertGrouped p.1 p.2 acc) acc).find?
            (fun p => p.1 = k)).map Prod.snd =
          some ((((acc.find? (fun p => p.1 = k)).map Prod.snd).getD []) ++
            (pairs.filter (fun p => p.1 = k)).map Prod.snd)) := by
  intro pairs
  induction pairs with
  | nil =>
    intro acc
    exact ⟨fun _ => rfl, fun hne => absurd rfl hne⟩
  | cons p t ih =>
    intro acc
    obtain ⟨k₀, r⟩ := p
    simp only [List.foldl_cons]
    by_cases hk : k₀ = k
    · subst hk
      constructor
      · intro hempty
        simp [List.filter_cons] at hempty
      · intro _
        by_cases ht : t.filter (fun p => p.1 = k₀) = []
        · rw [(ih (insertGrouped k₀ r acc)).1 ht, insertGrouped_find_same]
          simp [List.filter_cons, ht]
        · rw [(ih (insertGrouped k₀ r acc)).2 ht, insertGrouped_find_same]
          simp [List.filter_cons]
    · constructor
      · intro hempty
        rw [(ih (insertGrouped k₀ r acc)).1 (by simpa [List.filter_cons, hk] using hempty),
          insertGrouped_find_other k₀ r k (fun h => hk h.symm)]
      · intro hne
        rw [(ih (insertGrouped k₀ r acc)).2 (by simpa [List.filter_cons, hk] using hne),
          insertGrouped_find_other k₀ r k (fun h => hk h.symm)]
        simp [List.filter_cons, hk]

/-- The grouped list has pairwise-distinct keys. -/
theorem groupPairs_nodup {κ α : Type} [DecidableEq κ] (pairs : List (κ × α)) :
    ((groupPairs pairs).map Prod.fst).Nodup := by
  suffices h : ∀ (l : List (κ × α)) (acc : List (κ × List α)),
      (acc.map Prod.fst).Nodup →
      ((l.foldl (fun acc p => insertGrouped p.1 p.2 acc) acc).map Prod.fst).Nodup by
    exact h pairs [] (by simp)
  intro l
  induction l with
  | nil => intro acc h; simpa using h
  | cons p t ih =>
    intro acc h
    simp only [List.foldl_cons]
    exact ih _ (insertGrouped_nodup p.1 p.2 acc h)

/-- With pairwise-distinct keys, membership determines the lookup. -/
theorem find_of_mem_of_nodup {κ α : Type} [DecidableEq κ] :
    ∀ (acc : List (κ × List α)) (k : κ) (b : List α),
      (acc.map Prod.fst).Nodup → (k, b) ∈ acc →
      acc.find? (fun p => p.1 = k) = some (k, b) := by
  intro acc
  induction acc with
  | nil => intro k b _ h; simp at h
  | cons p t ih =>
    intro k b hnd hmem
    obtain ⟨k₀, rs⟩ := p
    have hnd' : (k₀ :: t.map Prod.fst).Nodup := by simpa using hnd
    rcases List.mem_cons.mp hmem with heq | hmem'
    · cases heq
      rw [List.find?_cons_of_pos _ (by simp)]
    · have hk : k₀ ≠ k := by
        intro heq
        subst heq
        exact (List.nodup_cons.mp hnd').1
          (List.mem_map.mpr ⟨(k₀, b), hmem', rfl⟩)
      rw [List.find?_cons_of_neg _ (by simp only [decide_eq_true_eq]; exact hk)]
      exact ih k b (List.nodup_cons.mp hnd').2 hmem'

/-- Every bucket of `groupPairs` is exactly the filter of the keyed
input at its key, and its key occurs in the input. -/
theorem groupPairs_mem_char {κ α : Type} [DecidableEq κ] (pairs : List (κ × α))
    (k : κ) (b : List α) (h : (k, b) ∈ groupPairs pairs) :
    b = (pairs.filter (fun p => p.1 = k)).map Prod.snd ∧
      pairs.filter (fun p => p.1 = k) ≠ [] := by
  have hf := find_of_mem_of_nodup (groupPairs pairs) k b (groupPairs_nodup pairs) h
  by_cases hempty : pairs.filter (fun p => p.1 = k) = []
  · have h1 := (foldl_insertGrouped_find k pairs []).1 hempty
    rw [show (pairs.foldl (fun acc p => insertGrouped p.1 p.2 acc) []
        : List (κ × List α)) = groupPairs pairs from rfl, hf] at h1
    simp at h1
  · have h2 := (foldl_insertGrouped_find k pairs []).2 hempty
    rw [show (pairs.foldl (fun acc p => insertGrouped p.1 p.2 acc) []
        : List (κ × List α)) = groupPairs pairs from rfl, hf] at h2
    refine ⟨?_, hempty⟩
    simpa using h2

/-! ## C6 — facts about the trend pipeline -/

/-- A successful key collection is the filter-map of the runs by their
resolved bucket. -/
theorem collectKeyed_ok_eq (events : List Event) :
    ∀ (rs : List Run) (l : List (Option ℕ × Run)),
      collectKeyed events rs = .ok l →
      l = rs.filterMap (fun r =>
        match resolveKey events r with
        | .ok (some k) => some (k, r)
        | _ => none) := by
  intro rs
  induction rs with
  | nil =>
    intro l h
    simp only [collectKeyed] at h
    cases h
    rfl
  | cons r t ih =>
    intro l h
    rw [collectKeyed] at h
    cases hres : resolveKey events r with
    | error e =>
      rw [hres] at h
      simp at h
    | ok o =>
      cases o with
      | none =>
        rw [hres] at h
        rw [List.filterMap_cons]
        simp only [hres]
        exact ih l h
      | some k =>
        rw [hres] at h
        cases hct : collectKeyed events t with
        | error e => rw [hct] at h; simp [Except.map] at h
        | ok t' =>
          rw [hct] at h
          simp only [Except.map] at h
          cases h
          rw [List.filterMap_cons]
          simp only [hres]
          rw [← ih t' hct]

/-- Filtering the keyed list at a bucket key and dropping the keys gives
exactly the runs resolving to that bucket, in order. -/
theorem keyedFilter (events : List Event) (k : Option ℕ) :
    ∀ rs : List Run,
      (((rs.filterMap (fun r =>
          match resolveKey events r with
          | .ok (some k') => some (k', r)
          | _ => none)).filter (fun p => p.1 = k)).map Prod.snd) =
        rs.filter (fun r => resolveKey events r = .ok (some k)) := by
  intro rs
  induction rs with
  | nil => rfl
  | cons r t ih =>
    rw [List.filterMap_cons, List.filter_cons]
    cases hres : resolveKey events r with
    | error e => simp [hres, ih]
    | ok o =>
      cases o with
      | none => simp [hres, ih]
      | some k' =>
        by_cases hk : k' = k
        · subst hk
          simp [hres, List.filter_cons, ih]
        · simp [hres, List.filter_cons, hk, ih]

/-- Decomposition of a successful `buildTrendSeries`. -/
theorem buildTrendSeries_ok (runs : List Run) (events : List Event)
    (ts : List TrendPoint) (h : buildTrendSeries runs events = .ok ts) :
    ∃ keyed, collectKeyed events runs = .ok keyed ∧
      ts = jsSort ltTrendPoint
        ((groupPairs keyed).map (fun p => mkTrendPoint p.1 p.2)) := by
  unfold buildTrendSeries at h
  cases hc : collectKeyed events runs with
  | error e => rw [hc] at h; simp [Except.map] at h
  | ok keyed =>
    rw [hc] at h
    simp only [Except.map] at h
    cases h
    exact ⟨keyed, rfl, rfl⟩

/-- A successful aggregation's trend series is the trend series of the
filtered runs. -/
theorem aggregateRuns_ok_trendSeries (args : AggArgs) (res : AggResult)
    (h : aggregateRuns args = .ok res) :
    buildTrendSeries (args.runs.filter (runPasses args.events args.filters))
      args.events = .ok res.trendSeries := by
  simp only [aggregateRuns] at h
  cases hb : buildTrendSeries (args.runs.filter (runPasses args.events args.filters))
      args.events with
  | error e => rw [hb] at h; simp [Except.map] at h
  | ok ts =>
    rw [hb] at h
    simp only [Except.map] at h
    cases h
    rfl

/--
C6 (amended): provided every filtered run's resolved day bucket is
valid — no run resolves through an event whose date string fails to
parse — the trend series of a successful aggregation has one point per
calendar day (every point carries a day, and the days are pairwise
distinct), its points are strictly ascending by date, and each point's
`bestLap` is the minimum of the valid parsed `bestLap` values of the
runs bucketed to that day (null when none are valid), so same-day runs
collapse into a single point.
-/
theorem claim_C6_amended (args : AggArgs) (res : AggResult)
    (hok : aggregateRuns args = .ok res)
    (hvalid : ∀ r ∈ res.filteredRuns, resolveKey args.events r ≠ .ok (some none)) :
    (∀ p ∈ res.trendSeries, p.x.isSome = true) ∧
    (res.trendSeries.map TrendPoint.x).Nodup ∧
    res.trendSeries.Pairwise (fun p q => ltTrendPoint p q = true) ∧
    (∀ p ∈ res.trendSeries,
      p.bestLap = minOfList (((res.filteredRuns.filter
          (fun r => resolveKey args.events r = .ok (some p.x))).map
            (fun r => parseLap r.bestLap)).filterMap id)) := by
  have hfr := aggregateRuns_ok_filteredRuns args res hok
  have hts := aggregateRuns_ok_trendSeries args res hok
  obtain ⟨keyed, hck, htseq⟩ := buildTrendSeries_ok _ _ _ hts
  have hkeyed := collectKeyed_ok_eq args.events _ keyed hck
  set raw := (groupPairs keyed).map (fun p => mkTrendPoint p.1 p.2) with hraw
  have hperm : res.trendSeries.Perm raw := by
    rw [htseq]; exact jsSort_perm _ _
  have hpt : ∀ p ∈ raw, ∃ b, (p.x, b) ∈ groupPairs keyed ∧ p = mkTrendPoint p.x b := by
    intro p hp
    obtain ⟨⟨k, b⟩, hkb, rfl⟩ := List.mem_map.mp hp
    exact ⟨b, hkb, rfl⟩
  have hbucket : ∀ p ∈ raw,
      p.bestLap = minOfList (((res.filteredRuns.filter
          (fun r => resolveKey args.events r = .ok (some p.x))).map
            (fun r => parseLap r.bestLap)).filterMap id) ∧
      ∃ r ∈ res.filteredRuns, resolveKey args.events r = .ok (some p.x) := by
    intro p hp
    obtain ⟨b, hkb, hpe⟩ := hpt p hp
    obtain ⟨hbeq, hbne⟩ := groupPairs_mem_char keyed p.x b hkb
    have hbfil : b = res.filteredRuns.filter
        (fun r => resolveKey args.events r = .ok (some p.x)) := by
      rw [hbeq, hkeyed, keyedFilter, ← hfr]
    constructor
    · conv_lhs => rw [hpe]
      rw [show (mkTrendPoint p.x b).bestLap =
        minOfList ((b.map (fun r => parseLap r.bestLap)).filterMap id) from rfl, hbfil]
    · have hbne' : b ≠ [] := by
        rw [hbeq]
        simpa using hbne
      rw [hbfil] at hbne'
      obtain ⟨r, hr⟩ := List.exists_mem_of_ne_nil _ hbne'
      have := List.mem_filter.mp hr
      exact ⟨r, this.1, of_decide_eq_true this.2⟩
  have hsome : ∀ p ∈ raw, p.x.isSome = true := by
    intro p hp
    obtain ⟨_, ⟨r, hrmem, hres⟩⟩ := hbucket p hp
    have hnv := hvalid r hrmem
    cases hx : p.x with
    | some _ => rfl
    | none => rw [hx] at hres; exact absurd hres hnv
  have hxmap : raw.map TrendPoint.x = (groupPairs keyed).map Prod.fst := by
    rw [hraw, List.map_map]; rfl
  have hnodupraw : (raw.map TrendPoint.x).Nodup := by
    rw [hxmap]; exact groupPairs_nodup keyed
  have hpne : raw.Pairwise (fun a b => a.x ≠ b.x) := by
    have h1 : (raw.map TrendPoint.x).Pairwise (fun a b => a ≠ b) := hnodupraw
    rwa [List.pairwise_map] at h1
  have hsorted : res.trendSeries.Pairwise
      (fun p q => (p.x.getD 0) < (q.x.getD 0)) := by
    rw [htseq]
    refine foldl_sortedInsert_pairwise_key ltTrendPoint
      (fun p => p.x.getD 0) raw [] (by simp) ?_ ?_
    · intro a ha b hb
      simp only [List.append_nil] at ha hb
      obtain ⟨ka, hka⟩ := Option.isSome_iff_exists.mp (hsome a ha)
      obtain ⟨kb, hkb⟩ := Option.isSome_iff_exists.mp (hsome b hb)
      simp [ltTrendPoint, hka, hkb]
    · simp only [List.append_nil]
      refine List.Pairwise.imp_of_mem ?_ hpne
      intro a b ha hb hne'
      obtain ⟨ka, hka⟩ := Option.isSome_iff_exists.mp (hsome a ha)
      obtain ⟨kb, hkb⟩ := Option.isSome_iff_exists.mp (hsome b hb)
      rw [hka, hkb] at hne' ⊢
      simpa using fun hc => hne' (by rw [hc])
  refine ⟨?_, ?_, ?_, ?_⟩
  · intro p hp
    exact hsome p (hperm.mem_iff.mp hp)
  · exact ((hperm.map TrendPoint.x).nodup_iff).mpr hnodupraw
  · refine List.Pairwise.imp_of_mem ?_ hsorted
    intro a b ha hb hlt
    obtain ⟨ka, hka⟩ := Option.isSome_iff_exists.mp (hsome a (hperm.mem_iff.mp ha))
    obtain ⟨kb, hkb⟩ := Option.isSome_iff_exists.mp (hsome b (hperm.mem_iff.mp hb))
    rw [hka, hkb] at hlt
    simp only [Option.getD_some] at hlt
    simp [ltTrendPoint, hka, hkb, hlt]
  · intro p hp
    exact (hbucket p (hperm.mem_iff.mp hp)).1

/--
C6 counterexample: a filtered run whose event has an unparsable date
string lands in the `"null"` bucket, so the resulting trend series
contains a point that belongs to no calendar day — the claim as stated
(one point per calendar day, ascending by date) fails without the
validity proviso.
-/
theorem claim_C6_counterexample :
    aggregateRuns c6Args = .ok c6Res ∧
    c6Res.trendSeries.map TrendPoint.x = [none] ∧
    ((c6Res.trendSeries.map TrendPoint.x).all Option.isSome) = false :=
  ⟨by decide, rfl, rfl⟩

/-- Witness for the amended C6: three runs on days 5, 5 and 3 give two
points, ascending, the day-5 pair collapsed to its minimum best lap. -/
theorem claim_C6_witness :
    (∀ p ∈ c6wRes.trendSeries, p.x.isSome = true) ∧
    (c6wRes.trendSeries.map TrendPoint.x).Nodup ∧
    c6wRes.trendSeries.Pairwise (fun p q => ltTrendPoint p q = true) ∧
    (∀ p ∈ c6wRes.trendSeries,
      p.bestLap = minOfList (((c6wRes.filteredRuns.filter
          (fun r => resolveKey c6wArgs.events r = .ok (some p.x))).map
            (fun r => parseLap r.bestLap)).filterMap id)) :=
  claim_C6_amended c6wArgs c6wRes (by decide) (by decide)

end ClaimTheorems
